import Mathlib

/-!
# Verification of the HAR metrics-extraction engine

Shallow embedding of `src/utils/harAnalyzer.js` (the module loaded by every
server revision via `require('./utils/harAnalyzer')`): the functions
`analyzeHAR`, `processEntry`, `processHTTPEntry`, `processWebSocketEntry`,
`calculateEntrySize` and `calculateErrorRate` are translated one-for-one.

Modelling conventions:
* JavaScript numbers are modelled as `ℚ` for elapsed times and as `Int` for
  body sizes; every code path exercised here uses only `+` and comparisons,
  so no NaN-producing operation occurs in the metrics pipeline.
* `new Date(entry.startedDateTime).getTime()` is modelled by letting an entry
  carry its start timestamp directly as epoch milliseconds.
* `new URL(u).hostname` is modelled by `urlHostname`: `none` stands for the
  `TypeError` the `URL` constructor throws on a string without a
  `scheme://` part, `some h` for the host component (the text after the
  first `://`, up to the first `/`, `:`, `?` or `#`).  This agrees with the
  JavaScript behaviour on every concrete URL used below.
* A JavaScript `Set` is a duplicate-free insertion-ordered list
  (`addToSet`); a plain object used as a counter table is an
  insertion-ordered association list (`bump`).
* The per-entry `try { processEntry(...) } catch { console.error(...) }` of
  `analyzeHAR` is modelled by `processEntry` returning the partially updated
  metrics together with a flag telling whether the body ran to completion;
  the driver counts the logged warnings.
* `analyzeHAR` also pushes three entries onto a local `insights` array
  before the traversal.  That block reads only the freshly initialised
  constant metrics, never mutates them, and calls four helper functions
  (`generateCacheDetails`, `generateCacheRecommendations`,
  `generateErrorDetails`, `generateErrorRecommendations`) that are defined
  nowhere in the repository — the file elides them behind the comment
  "... Add similar helper functions for cache and error insights ...".
  Modelled from the spec: insight generation is a downstream collaborator
  outside the metrics core (spec §1, §6), so those missing helpers are
  total and the insights block is omitted from the embedding; the embedding
  returns the metrics object and the warning count.
-/

/-- ASCII lower-casing of one character, as `String.prototype.toLowerCase`
acts on the header names appearing here. -/
def lowerChar (c : Char) : Char :=
  if 'A' ≤ c ∧ c ≤ 'Z' then Char.ofNat (c.toNat + 32) else c

/-- Model of `s.toLowerCase()` for the ASCII strings involved. -/
def jsToLowerCase (s : String) : String :=
  ⟨s.data.map lowerChar⟩

/-- Model of `s.includes(sub)` (substring containment). -/
def strIncludes (s sub : String) : Bool :=
  (List.range (s.data.length + 1)).any fun i => sub.data.isPrefixOf (s.data.drop i)

/-- The three characters separating a URL scheme from the rest. -/
def urlSepChars : List Char := [':', '/', '/']

/-- Text after the first occurrence of `"://"`, or `none` when there is none. -/
def afterScheme : List Char → Option (List Char)
  | [] => none
  | c :: rest =>
    if urlSepChars.isPrefixOf (c :: rest) then some (rest.drop 2)
    else afterScheme rest

/-- Characters ending the host component of a URL. -/
def hostEnd (c : Char) : Bool :=
  c = '/' || c = ':' || c = '?' || c = '#'

/-- Model of `new URL(u).hostname`: `none` when the `URL` constructor throws
(no `scheme://` part, or an empty scheme), `some h` otherwise. -/
def urlHostname (s : String) : Option String :=
  if urlSepChars.isPrefixOf s.data then none
  else
    match afterScheme s.data with
    | none => none
    | some rest => some ⟨rest.takeWhile fun c => !hostEnd c⟩

/-- Model of `Set.prototype.add`: insertion-ordered, duplicate free. -/
def addToSet (l : List String) (x : String) : List String :=
  if x ∈ l then l else l ++ [x]

/-- Model of `obj[k] = (obj[k] || 0) + 1` on a counter object. -/
def bump : List (String × Nat) → String → List (String × Nat)
  | [], k => [(k, 1)]
  | p :: rest, k => if p.1 = k then (p.1, p.2 + 1) :: rest else p :: bump rest k

/-- One name/value pair of a HAR `headers` array. -/
structure HarHeader where
  name : String
  value : String
deriving DecidableEq

/-- One recorded WebSocket message (`entry._webSocketMessages[i]`). -/
structure WSMessage where
  type : String
  data : Option String
deriving DecidableEq

/-- The `request` part of an entry, as far as the analyzer reads it. -/
structure HarRequest where
  url : String
deriving DecidableEq

/-- The `response` part of an entry, as far as the analyzer reads it. -/
structure HarResponse where
  status : Nat
  headers : List HarHeader
  bodySize : Int
deriving DecidableEq

/-- One HAR entry, with the fields the analyzer reads.  `startedDateTime`
carries the epoch milliseconds `new Date(...).getTime()` yields for it;
`resourceType` is the vendor tag `_resourceType`, `webSocketMessages` the
vendor extension `_webSocketMessages`. -/
structure HarEntry where
  request : HarRequest
  response : HarResponse
  time : ℚ
  startedDateTime : Int
  resourceType : Option String
  webSocketMessages : Option (List WSMessage)
deriving DecidableEq

/-- The `log` container of a HAR document; `entries` is `none` when the
field is absent or null. -/
structure HarLog where
  entries : Option (List HarEntry)
deriving DecidableEq

/-- A parsed HAR document; `log` is `none` when absent. -/
structure HarContent where
  log : Option HarLog
deriving DecidableEq

/-- An element of `httpMetrics.slowestRequests` (`{url, time, type}`). -/
structure SlowRequest where
  url : String
  time : ℚ
  type : String
deriving DecidableEq

/-- An element of `httpMetrics.largestRequests` (`{url, size, type}`). -/
structure LargeRequest where
  url : String
  size : Int
  type : String
deriving DecidableEq

/-- An element of `metrics.timeseries`: the analyzer pushes
`{timestamp: new Date(entry.startedDateTime).getTime(), value: entry.time}`. -/
structure TimePoint where
  timestamp : Int
  value : ℚ
deriving DecidableEq

/-- An element of `httpMetrics.securityIssues`.  The list is initialised
empty and no code path of the module appends to it. -/
structure SecurityIssue where
  type : String
  url : String
deriving DecidableEq

/-- The `metrics.primary` block. -/
structure PrimaryMetrics where
  totalRequests : Nat
  avgResponseTime : ℚ
  totalSize : Int
  errorRate : ℚ
deriving DecidableEq

/-- The `metrics.selected` block.  `errorRequests` is initialised to an
empty array and never touched; its element type is never exercised. -/
structure SelectedMetrics where
  slowestRequests : List SlowRequest
  largestRequests : List LargeRequest
  errorRequests : List String
deriving DecidableEq

/-- The `metrics.httpMetrics` block. -/
structure HttpMetrics where
  requests : Nat
  totalSize : Int
  totalTime : ℚ
  statusCodes : List (String × Nat)
  requestsByType : List (String × Nat)
  slowestRequests : List SlowRequest
  largestRequests : List LargeRequest
  cacheHits : Nat
  cacheMisses : Nat
  securityIssues : List SecurityIssue
deriving DecidableEq

/-- The `metrics.websocketMetrics` block.  `errors` is initialised empty and
never touched. -/
structure WebsocketMetrics where
  connections : Nat
  messageCount : Nat
  sentMessages : Nat
  receivedMessages : Nat
  totalMessageSize : Nat
  averageMessageSize : ℚ
  connectionDuration : ℚ
  messageTypes : List (String × Nat)
  protocols : List String
  errors : List String
deriving DecidableEq

/-- The metrics object `analyzeHAR` builds (lines 7–63 of the source). -/
structure Metrics where
  totalRequests : Nat
  totalSize : Int
  totalTime : ℚ
  primary : PrimaryMetrics
  selected : SelectedMetrics
  timeseries : List TimePoint
  requestsByType : List (String × Nat)
  statusCodes : List (String × Nat)
  domains : List String
  httpMetrics : HttpMetrics
  websocketMetrics : WebsocketMetrics
deriving DecidableEq

/-- The object literal `analyzeHAR` starts from: every counter 0, every
list, set and table empty. -/
def initMetrics : Metrics where
  totalRequests := 0
  totalSize := 0
  totalTime := 0
  primary := ⟨0, 0, 0, 0⟩
  selected := ⟨[], [], []⟩
  timeseries := []
  requestsByType := []
  statusCodes := []
  domains := []
  httpMetrics := ⟨0, 0, 0, [], [], [], [], 0, 0, []⟩
  websocketMetrics := ⟨0, 0, 0, 0, 0, 0, 0, [], [], []⟩

/-- Model of `entry._resourceType || 'other'`: JavaScript `||` falls
through on the empty string too, not only on an absent value. -/
def resourceTypeOr (o : Option String) (d : String) : String :=
  match o with
  | some s => if s = "" then d else s
  | none => d

/-- `calculateEntrySize`: `entry.response.bodySize > 0 ? entry.response.bodySize : 0`. -/
def calculateEntrySize (entry : HarEntry) : Int :=
  if entry.response.bodySize > 0 then entry.response.bodySize else 0

/-- `calculateErrorRate`: defined in the source (lines 207–211) but never
called by any function of the module; kept because claim C1 turns on its
absence from the call graph. -/
def calculateErrorRate (statusCodes : List (String × Nat)) : ℚ :=
  let errors : Nat :=
    ((statusCodes.lookup "4xx").getD 0) + ((statusCodes.lookup "5xx").getD 0)
  let total : Nat := (statusCodes.map (·.2)).sum
  if total > 0 then (errors : ℚ) / (total : ℚ) else 0

/-- The body of the `forEach` over `entry._webSocketMessages` in
`processWebSocketEntry` (lines 121–128), acting on `websocketMetrics`. -/
def processWSMessage (msg : WSMessage) (w : WebsocketMetrics) : WebsocketMetrics :=
  let w1 := { w with messageCount := w.messageCount + 1 }
  let w2 :=
    if msg.type = "send" then { w1 with sentMessages := w1.sentMessages + 1 } else w1
  let w3 :=
    if msg.type = "receive" then
      { w2 with receivedMessages := w2.receivedMessages + 1 }
    else w2
  let w4 :=
    { w3 with totalMessageSize := w3.totalMessageSize + ((msg.data.map String.length).getD 0) }
  { w4 with messageTypes := bump w4.messageTypes msg.type }

/-- `processWebSocketEntry` (lines 117–132). -/
def processWebSocketEntry (entry : HarEntry) (metrics : Metrics) : Metrics :=
  let m1 :=
    { metrics with
      websocketMetrics :=
        { metrics.websocketMetrics with
          connections := metrics.websocketMetrics.connections + 1 } }
  let m2 :=
    match entry.webSocketMessages with
    | some msgs =>
      { m1 with
        websocketMetrics := msgs.foldl (fun w msg => processWSMessage msg w) m1.websocketMetrics }
    | none => m1
  { m2 with
    websocketMetrics :=
      { m2.websocketMetrics with
        connectionDuration := m2.websocketMetrics.connectionDuration + entry.time } }

/-- `processHTTPEntry` (lines 158–201). -/
def processHTTPEntry (entry : HarEntry) (metrics : Metrics) : Metrics :=
  let size := calculateEntrySize entry
  let type := resourceTypeOr entry.resourceType "other"
  let m1 :=
    { metrics with
      httpMetrics :=
        { metrics.httpMetrics with
          requests := metrics.httpMetrics.requests + 1
          totalSize := metrics.httpMetrics.totalSize + size
          totalTime := metrics.httpMetrics.totalTime + entry.time } }
  let statusCategory := toString (entry.response.status / 100) ++ "xx"
  let m2 :=
    { m1 with
      httpMetrics :=
        { m1.httpMetrics with
          statusCodes := bump m1.httpMetrics.statusCodes statusCategory } }
  let m3 :=
    if entry.time > 1000 then
      { m2 with
        httpMetrics :=
          { m2.httpMetrics with
            slowestRequests :=
              m2.httpMetrics.slowestRequests ++ [⟨entry.request.url, entry.time, type⟩] } }
    else m2
  let m4 :=
    if size > 1000000 then
      { m3 with
        httpMetrics :=
          { m3.httpMetrics with
            largestRequests :=
              m3.httpMetrics.largestRequests ++ [⟨entry.request.url, size, type⟩] } }
    else m3
  match entry.response.headers.find? (fun h => jsToLowerCase h.name == "cache-control") with
  | some cacheControl =>
    if strIncludes cacheControl.value "no-cache" || strIncludes cacheControl.value "no-store" then
      { m4 with
        httpMetrics := { m4.httpMetrics with cacheMisses := m4.httpMetrics.cacheMisses + 1 } }
    else
      { m4 with
        httpMetrics := { m4.httpMetrics with cacheHits := m4.httpMetrics.cacheHits + 1 } }
  | none => m4

/-- `processEntry` (lines 134–156).  The second component is `true` when the
body ran to completion and `false` when `new URL(entry.request.url)` threw:
in that case the mutations already applied (the three totals) persist and
the caller's `catch` logs the error. -/
def processEntry (entry : HarEntry) (metrics : Metrics) : Metrics × Bool :=
  let m1 :=
    { metrics with
      totalRequests := metrics.totalRequests + 1
      totalSize := metrics.totalSize + calculateEntrySize entry
      totalTime := metrics.totalTime + entry.time }
  match urlHostname entry.request.url with
  | none => (m1, false)
  | some domain =>
    let m2 := { m1 with domains := addToSet m1.domains domain }
    let m3 :=
      if entry.resourceType = some "websocket" then processWebSocketEntry entry m2
      else processHTTPEntry entry m2
    ({ m3 with
        timeseries := m3.timeseries ++ [⟨entry.startedDateTime, entry.time⟩] },
      true)

/-- One step of the `forEach` in `analyzeHAR` (lines 99–105): run
`processEntry`, and count one `console.error('Error processing entry', ...)`
warning when it threw. -/
def entryStep (acc : Metrics × Nat) (entry : HarEntry) : Metrics × Nat :=
  let (m, ok) := processEntry entry acc.1
  (m, if ok then acc.2 else acc.2 + 1)

/-- What `analyzeHAR` hands back for a valid document: the metrics object
and the number of per-entry warnings logged. -/
structure AnalysisResult where
  metrics : Metrics
  warnings : Nat
deriving DecidableEq

/-- Traversal of an entries array from the fresh metrics object. -/
def analyzeEntries (entries : List HarEntry) : AnalysisResult :=
  let p := entries.foldl entryStep (initMetrics, 0)
  ⟨p.1, p.2⟩

/-- The failure `analyzeHAR` throws for a document without a `log.entries`
container: `new Error('Invalid HAR format: missing log.entries')`. -/
inductive AnalysisError where
  | invalidFormat : AnalysisError
deriving DecidableEq

/-- `analyzeHAR` (lines 1–115): validate `harContent?.log?.entries`, then
fold every entry into the fresh metrics object and return it.  The input is
`Option HarContent` so that a null/undefined document is representable. -/
def analyzeHAR (harContent : Option HarContent) : Except AnalysisError AnalysisResult :=
  match harContent with
  | none => .error .invalidFormat
  | some hc =>
    match hc.log with
    | none => .error .invalidFormat
    | some log =>
      match log.entries with
      | none => .error .invalidFormat
      | some entries => .ok (analyzeEntries entries)

/-- Truthiness of `harContent?.log?.entries` (line 3 of the source). -/
def hasEntriesContainer (harContent : Option HarContent) : Bool :=
  match harContent with
  | none => false
  | some hc =>
    match hc.log with
    | none => false
    | some log => log.entries.isSome

/-- Document with the given entries array, for stating claims. -/
def mkDoc (entries : List HarEntry) : Option HarContent :=
  some ⟨some ⟨some entries⟩⟩

/-! ## Characterization helpers

Abbreviations used only to state properties of the functions above. -/

/-- Whether `processEntry` runs to completion on the entry: `new URL` does
not throw on its request URL. -/
def entryOk (e : HarEntry) : Bool :=
  (urlHostname e.request.url).isSome

/-- The classifier test of line 145: `entry._resourceType === 'websocket'`. -/
def isWebsocket (e : HarEntry) : Bool :=
  e.resourceType = some "websocket"

/-- The record `processHTTPEntry` pushes for a slow request. -/
def slowRecOf (e : HarEntry) : SlowRequest :=
  ⟨e.request.url, e.time, resourceTypeOr e.resourceType "other"⟩

/-- The record `processHTTPEntry` pushes for a large request. -/
def largeRecOf (e : HarEntry) : LargeRequest :=
  ⟨e.request.url, calculateEntrySize e, resourceTypeOr e.resourceType "other"⟩

/-- The timeseries point `processEntry` pushes for an entry. -/
def pointOf (e : HarEntry) : TimePoint :=
  ⟨e.startedDateTime, e.time⟩

/-- Whether the entry ends up in the slow-candidates list. -/
def slowCandidate (e : HarEntry) : Bool :=
  entryOk e && !isWebsocket e && decide (e.time > 1000)

/-- Whether the entry ends up in the large-candidates list. -/
def largeCandidate (e : HarEntry) : Bool :=
  entryOk e && !isWebsocket e && decide (calculateEntrySize e > 1000000)

/-- The cache-control response header of an entry, as line 191 finds it. -/
def cacheControlOf (e : HarEntry) : Option HarHeader :=
  e.response.headers.find? fun h => jsToLowerCase h.name == "cache-control"

/-! ## Step lemmas for processHTTPEntry -/

theorem processHTTPEntry_frame (e : HarEntry) (m : Metrics) :
    processHTTPEntry e m = { m with httpMetrics := (processHTTPEntry e m).httpMetrics } := by
  simp only [processHTTPEntry]
  split <;> split <;> split <;> try rfl
  all_goals split <;> rfl

theorem processHTTPEntry_requests (e : HarEntry) (m : Metrics) :
    (processHTTPEntry e m).httpMetrics.requests = m.httpMetrics.requests + 1 := by
  simp only [processHTTPEntry]
  split <;> split <;> split <;> try rfl
  all_goals split <;> rfl

theorem processHTTPEntry_slowest (e : HarEntry) (m : Metrics) :
    (processHTTPEntry e m).httpMetrics.slowestRequests =
      m.httpMetrics.slowestRequests ++
        (if e.time > 1000 then [slowRecOf e] else []) := by
  simp only [processHTTPEntry, slowRecOf]
  split <;> split <;> split <;> first
  | (split <;> simp)
  | simp

theorem processHTTPEntry_largest (e : HarEntry) (m : Metrics) :
    (processHTTPEntry e m).httpMetrics.largestRequests =
      m.httpMetrics.largestRequests ++
        (if calculateEntrySize e > 1000000 then [largeRecOf e] else []) := by
  simp only [processHTTPEntry, largeRecOf]
  split <;> split <;> split <;> first
  | (split <;> simp)
  | simp

theorem processHTTPEntry_security (e : HarEntry) (m : Metrics) :
    (processHTTPEntry e m).httpMetrics.securityIssues = m.httpMetrics.securityIssues := by
  simp only [processHTTPEntry]
  split <;> split <;> split <;> try rfl
  all_goals split <;> rfl

theorem processHTTPEntry_cacheHits (e : HarEntry) (m : Metrics) :
    (processHTTPEntry e m).httpMetrics.cacheHits =
      m.httpMetrics.cacheHits +
        (match cacheControlOf e with
          | some cc =>
            if strIncludes cc.value "no-cache" || strIncludes cc.value "no-store" then 0 else 1
          | none => 0) := by
  simp only [processHTTPEntry, cacheControlOf]
  split <;> split <;> split <;> (try split) <;> simp

theorem processHTTPEntry_cacheMisses (e : HarEntry) (m : Metrics) :
    (processHTTPEntry e m).httpMetrics.cacheMisses =
      m.httpMetrics.cacheMisses +
        (match cacheControlOf e with
          | some cc =>
            if strIncludes cc.value "no-cache" || strIncludes cc.value "no-store" then 1 else 0
          | none => 0) := by
  simp only [processHTTPEntry, cacheControlOf]
  split <;> split <;> split <;> (try split) <;> simp

/-! ## Step lemmas for processWebSocketEntry -/

theorem processWSMessage_frame (msg : WSMessage) (w : WebsocketMetrics) :
    processWSMessage msg w =
      { w with
        messageCount := w.messageCount + 1
        sentMessages := w.sentMessages + (if msg.type = "send" then 1 else 0)
        receivedMessages := w.receivedMessages + (if msg.type = "receive" then 1 else 0)
        totalMessageSize := w.totalMessageSize + ((msg.data.map String.length).getD 0)
        messageTypes := bump w.messageTypes msg.type } := by
  simp only [processWSMessage]
  split <;> split <;> simp

theorem processWebSocketEntry_frame (e : HarEntry) (m : Metrics) :
    processWebSocketEntry e m =
      { m with websocketMetrics := (processWebSocketEntry e m).websocketMetrics } := by
  simp only [processWebSocketEntry]
  split <;> rfl

theorem processWebSocketEntry_connections (e : HarEntry) (m : Metrics) :
    (processWebSocketEntry e m).websocketMetrics.connections =
      m.websocketMetrics.connections + 1 := by
  simp only [processWebSocketEntry]
  split
  case h_1 msgs heq =>
    have h : ∀ (l : List WSMessage) (w : WebsocketMetrics),
        (l.foldl (fun w msg => processWSMessage msg w) w).connections = w.connections := by
      intro l
      induction l with
      | nil => intro w; rfl
      | cons msg rest ih =>
        intro w
        rw [List.foldl_cons, ih, processWSMessage_frame]
    simp [h]
  case h_2 => rfl

theorem processWebSocketEntry_averageMessageSize (e : HarEntry) (m : Metrics) :
    (processWebSocketEntry e m).websocketMetrics.averageMessageSize =
      m.websocketMetrics.averageMessageSize := by
  simp only [processWebSocketEntry]
  split
  case h_1 msgs heq =>
    have h : ∀ (l : List WSMessage) (w : WebsocketMetrics),
        (l.foldl (fun w msg => processWSMessage msg w) w).averageMessageSize =
          w.averageMessageSize := by
      intro l
      induction l with
      | nil => intro w; rfl
      | cons msg rest ih =>
        intro w
        rw [List.foldl_cons, ih, processWSMessage_frame]
    simp [h]
  case h_2 => rfl

/-! ## Step lemmas for processEntry -/

theorem processEntry_totalRequests (e : HarEntry) (m : Metrics) :
    (processEntry e m).1.totalRequests = m.totalRequests + 1 := by
  simp only [processEntry]
  split
  · simp
  · split
    · rw [processWebSocketEntry_frame]; try simp
    · rw [processHTTPEntry_frame]; try simp

theorem processEntry_totalSize (e : HarEntry) (m : Metrics) :
    (processEntry e m).1.totalSize = m.totalSize + calculateEntrySize e := by
  simp only [processEntry]
  split
  · simp
  · split
    · rw [processWebSocketEntry_frame]; try simp
    · rw [processHTTPEntry_frame]; try simp

theorem processEntry_totalTime (e : HarEntry) (m : Metrics) :
    (processEntry e m).1.totalTime = m.totalTime + e.time := by
  simp only [processEntry]
  split
  · simp
  · split
    · rw [processWebSocketEntry_frame]; try simp
    · rw [processHTTPEntry_frame]; try simp

theorem processEntry_ok (e : HarEntry) (m : Metrics) :
    (processEntry e m).2 = entryOk e := by
  simp only [processEntry, entryOk]
  split <;> simp_all

theorem processEntry_primary (e : HarEntry) (m : Metrics) :
    (processEntry e m).1.primary = m.primary := by
  simp only [processEntry]
  split
  · simp
  · split
    · rw [processWebSocketEntry_frame]; try simp
    · rw [processHTTPEntry_frame]; try simp

theorem processEntry_selected (e : HarEntry) (m : Metrics) :
    (processEntry e m).1.selected = m.selected := by
  simp only [processEntry]
  split
  · simp
  · split
    · rw [processWebSocketEntry_frame]; try simp
    · rw [processHTTPEntry_frame]; try simp

theorem processEntry_averageMessageSize (e : HarEntry) (m : Metrics) :
    (processEntry e m).1.websocketMetrics.averageMessageSize =
      m.websocketMetrics.averageMessageSize := by
  simp only [processEntry]
  split
  · simp
  · split
    · try simp [processWebSocketEntry_averageMessageSize]
    · rw [processHTTPEntry_frame]; try simp

theorem processEntry_securityIssues (e : HarEntry) (m : Metrics) :
    (processEntry e m).1.httpMetrics.securityIssues =
      m.httpMetrics.securityIssues := by
  simp only [processEntry]
  split
  · simp
  · split
    · rw [processWebSocketEntry_frame]; try simp
    · try simp [processHTTPEntry_security]

theorem processEntry_timeseries (e : HarEntry) (m : Metrics) :
    (processEntry e m).1.timeseries =
      m.timeseries ++ (if entryOk e then [pointOf e] else []) := by
  simp only [processEntry, entryOk, pointOf]
  split
  case h_1 heq => simp [heq]
  case h_2 d heq =>
    split
    · rw [processWebSocketEntry_frame]; simp [heq]
    · rw [processHTTPEntry_frame]; simp [heq]

theorem processEntry_slowest (e : HarEntry) (m : Metrics) :
    (processEntry e m).1.httpMetrics.slowestRequests =
      m.httpMetrics.slowestRequests ++
        (if slowCandidate e then [slowRecOf e] else []) := by
  simp only [processEntry, slowCandidate, entryOk, isWebsocket]
  split
  case h_1 heq => simp [heq]
  case h_2 d heq =>
    split
    case isTrue hws =>
      rw [processWebSocketEntry_frame]
      simp [heq, hws]
    case isFalse hws =>
      rw [processHTTPEntry_frame]
      simp [heq, hws, processHTTPEntry_slowest]

theorem processEntry_largest (e : HarEntry) (m : Metrics) :
    (processEntry e m).1.httpMetrics.largestRequests =
      m.httpMetrics.largestRequests ++
        (if largeCandidate e then [largeRecOf e] else []) := by
  simp only [processEntry, largeCandidate, entryOk, isWebsocket]
  split
  case h_1 heq => simp [heq]
  case h_2 d heq =>
    split
    case isTrue hws =>
      rw [processWebSocketEntry_frame]
      simp [heq, hws]
    case isFalse hws =>
      rw [processHTTPEntry_frame]
      simp [heq, hws, processHTTPEntry_largest]

theorem processEntry_httpRequests (e : HarEntry) (m : Metrics) :
    (processEntry e m).1.httpMetrics.requests =
      m.httpMetrics.requests + (if entryOk e && !isWebsocket e then 1 else 0) := by
  simp only [processEntry, entryOk, isWebsocket]
  split
  case h_1 heq => simp [heq]
  case h_2 d heq =>
    split
    case isTrue hws =>
      rw [processWebSocketEntry_frame]
      simp [heq, hws]
    case isFalse hws =>
      rw [processHTTPEntry_frame]
      simp [heq, hws, processHTTPEntry_requests]

theorem processEntry_wsConnections (e : HarEntry) (m : Metrics) :
    (processEntry e m).1.websocketMetrics.connections =
      m.websocketMetrics.connections +
        (if entryOk e && isWebsocket e then 1 else 0) := by
  simp only [processEntry, entryOk, isWebsocket]
  split
  case h_1 heq => simp [heq]
  case h_2 d heq =>
    split
    case isTrue hws =>
      simp [heq, hws, processWebSocketEntry_connections]
    case isFalse hws =>
      rw [processHTTPEntry_frame]
      simp [heq, hws]

theorem processEntry_domains (e : HarEntry) (m : Metrics) :
    (processEntry e m).1.domains =
      (match urlHostname e.request.url with
        | some d => addToSet m.domains d
        | none => m.domains) := by
  simp only [processEntry]
  split
  case h_1 heq => simp [heq]
  case h_2 d heq =>
    split
    case isTrue hws =>
      rw [processWebSocketEntry_frame]
      simp [heq]
    case isFalse hws =>
      rw [processHTTPEntry_frame]
      simp [heq]

/-! ## Traversal lemmas -/

theorem entryStep_fst (acc : Metrics × Nat) (e : HarEntry) :
    (entryStep acc e).1 = (processEntry e acc.1).1 := rfl

theorem entryStep_snd (acc : Metrics × Nat) (e : HarEntry) :
    (entryStep acc e).2 = if entryOk e then acc.2 else acc.2 + 1 := by
  have h : (entryStep acc e).2 =
      if (processEntry e acc.1).2 then acc.2 else acc.2 + 1 := rfl
  rw [h, processEntry_ok]

theorem foldl_totalRequests : ∀ (es : List HarEntry) (acc : Metrics × Nat),
    ((es.foldl entryStep acc).1).totalRequests = acc.1.totalRequests + es.length := by
  intro es
  induction es with
  | nil => intro acc; simp
  | cons e rest ih =>
    intro acc
    rw [List.foldl_cons, ih, entryStep_fst, processEntry_totalRequests]
    simp [List.length_cons]
    omega

theorem foldl_totalSize : ∀ (es : List HarEntry) (acc : Metrics × Nat),
    ((es.foldl entryStep acc).1).totalSize =
      acc.1.totalSize + (es.map calculateEntrySize).sum := by
  intro es
  induction es with
  | nil => intro acc; simp
  | cons e rest ih =>
    intro acc
    rw [List.foldl_cons, ih, entryStep_fst, processEntry_totalSize]
    simp [List.map_cons, List.sum_cons]
    ring

theorem foldl_totalTime : ∀ (es : List HarEntry) (acc : Metrics × Nat),
    ((es.foldl entryStep acc).1).totalTime =
      acc.1.totalTime + (es.map (·.time)).sum := by
  intro es
  induction es with
  | nil => intro acc; simp
  | cons e rest ih =>
    intro acc
    rw [List.foldl_cons, ih, entryStep_fst, processEntry_totalTime]
    simp [List.map_cons, List.sum_cons]
    ring

theorem foldl_warnings : ∀ (es : List HarEntry) (acc : Metrics × Nat),
    (es.foldl entryStep acc).2 =
      acc.2 + (es.filter fun e => !entryOk e).length := by
  intro es
  induction es with
  | nil => intro acc; simp
  | cons e rest ih =>
    intro acc
    rw [List.foldl_cons, ih, entryStep_snd]
    by_cases h : entryOk e <;> simp [h, List.filter_cons] <;> omega

theorem foldl_primary : ∀ (es : List HarEntry) (acc : Metrics × Nat),
    ((es.foldl entryStep acc).1).primary = acc.1.primary := by
  intro es
  induction es with
  | nil => intro acc; rfl
  | cons e rest ih =>
    intro acc
    rw [List.foldl_cons, ih, entryStep_fst, processEntry_primary]

theorem foldl_selected : ∀ (es : List HarEntry) (acc : Metrics × Nat),
    ((es.foldl entryStep acc).1).selected = acc.1.selected := by
  intro es
  induction es with
  | nil => intro acc; rfl
  | cons e rest ih =>
    intro acc
    rw [List.foldl_cons, ih, entryStep_fst, processEntry_selected]

theorem foldl_averageMessageSize : ∀ (es : List HarEntry) (acc : Metrics × Nat),
    ((es.foldl entryStep acc).1).websocketMetrics.averageMessageSize =
      acc.1.websocketMetrics.averageMessageSize := by
  intro es
  induction es with
  | nil => intro acc; rfl
  | cons e rest ih =>
    intro acc
    rw [List.foldl_cons, ih, entryStep_fst, processEntry_averageMessageSize]

theorem foldl_securityIssues : ∀ (es : List HarEntry) (acc : Metrics × Nat),
    ((es.foldl entryStep acc).1).httpMetrics.securityIssues =
      acc.1.httpMetrics.securityIssues := by
  intro es
  induction es with
  | nil => intro acc; rfl
  | cons e rest ih =>
    intro acc
    rw [List.foldl_cons, ih, entryStep_fst, processEntry_securityIssues]

theorem foldl_timeseries : ∀ (es : List HarEntry) (acc : Metrics × Nat),
    ((es.foldl entryStep acc).1).timeseries =
      acc.1.timeseries ++ (es.filter entryOk).map pointOf := by
  intro es
  induction es with
  | nil => intro acc; simp
  | cons e rest ih =>
    intro acc
    rw [List.foldl_cons, ih, entryStep_fst, processEntry_timeseries]
    by_cases h : entryOk e <;> simp [h, List.filter_cons]

theorem foldl_slowest : ∀ (es : List HarEntry) (acc : Metrics × Nat),
    ((es.foldl entryStep acc).1).httpMetrics.slowestRequests =
      acc.1.httpMetrics.slowestRequests ++ (es.filter slowCandidate).map slowRecOf := by
  intro es
  induction es with
  | nil => intro acc; simp
  | cons e rest ih =>
    intro acc
    rw [List.foldl_cons, ih, entryStep_fst, processEntry_slowest]
    by_cases h : slowCandidate e <;> simp [h, List.filter_cons]

theorem foldl_largest : ∀ (es : List HarEntry) (acc : Metrics × Nat),
    ((es.foldl entryStep acc).1).httpMetrics.largestRequests =
      acc.1.httpMetrics.largestRequests ++ (es.filter largeCandidate).map largeRecOf := by
  intro es
  induction es with
  | nil => intro acc; simp
  | cons e rest ih =>
    intro acc
    rw [List.foldl_cons, ih, entryStep_fst, processEntry_largest]
    by_cases h : largeCandidate e <;> simp [h, List.filter_cons]

theorem foldl_httpRequests : ∀ (es : List HarEntry) (acc : Metrics × Nat),
    ((es.foldl entryStep acc).1).httpMetrics.requests =
      acc.1.httpMetrics.requests +
        (es.filter fun e => entryOk e && !isWebsocket e).length := by
  intro es
  induction es with
  | nil => intro acc; simp
  | cons e rest ih =>
    intro acc
    rw [List.foldl_cons, ih, entryStep_fst, processEntry_httpRequests]
    by_cases h : (entryOk e && !isWebsocket e) = true <;>
      simp [h, List.filter_cons] <;> omega

theorem foldl_wsConnections : ∀ (es : List HarEntry) (acc : Metrics × Nat),
    ((es.foldl entryStep acc).1).websocketMetrics.connections =
      acc.1.websocketMetrics.connections +
        (es.filter fun e => entryOk e && isWebsocket e).length := by
  intro es
  induction es with
  | nil => intro acc; simp
  | cons e rest ih =>
    intro acc
    rw [List.foldl_cons, ih, entryStep_fst, processEntry_wsConnections]
    by_cases h : (entryOk e && isWebsocket e) = true <;>
      simp [h, List.filter_cons] <;> omega

theorem foldl_domains : ∀ (es : List HarEntry) (acc : Metrics × Nat),
    ((es.foldl entryStep acc).1).domains =
      (es.filterMap fun e => urlHostname e.request.url).foldl addToSet acc.1.domains := by
  intro es
  induction es with
  | nil => intro acc; simp
  | cons e rest ih =>
    intro acc
    rw [List.foldl_cons, ih, entryStep_fst, processEntry_domains]
    cases h : urlHostname e.request.url <;> simp [h, List.filterMap_cons]

/-! ## WebSocket counter invariant -/

/-- Total of all counts in a counter table. -/
def sumCounts (l : List (String × Nat)) : Nat :=
  (l.map (·.2)).sum

/-- Keys that feed neither direction counter. -/
def offKey (k : String) : Bool :=
  !(k == "send" || k == "receive")

/-- Total of the counts recorded under keys other than the two directions. -/
def offSum (l : List (String × Nat)) : Nat :=
  ((l.filter fun p => offKey p.1).map (·.2)).sum

theorem bump_sumCounts (l : List (String × Nat)) (k : String) :
    sumCounts (bump l k) = sumCounts l + 1 := by
  induction l with
  | nil => rfl
  | cons p rest ih =>
    simp only [bump]
    split
    · simp [sumCounts]
      omega
    · simp [sumCounts] at ih ⊢
      omega

theorem bump_offSum (l : List (String × Nat)) (k : String) :
    offSum (bump l k) = offSum l + (if offKey k then 1 else 0) := by
  induction l with
  | nil =>
    by_cases h : offKey k <;> simp [bump, offSum, List.filter_cons, h]
  | cons p rest ih =>
    simp only [bump]
    split
    case isTrue heq =>
      by_cases h : offKey k <;> simp [offSum, List.filter_cons, heq, h] <;> omega
    case isFalse heq =>
      by_cases ho : offKey k <;> by_cases h : offKey p.1 <;>
        simp [offSum, List.filter_cons, h, ho] at ih ⊢ <;> omega

theorem bump_pos (l : List (String × Nat)) (k : String)
    (h : ∀ p ∈ l, 1 ≤ p.2) : ∀ p ∈ bump l k, 1 ≤ p.2 := by
  induction l with
  | nil =>
    intro p hp
    simp [bump] at hp
    simp [hp]
  | cons q rest ih =>
    simp only [bump]
    split
    case isTrue heq =>
      intro p hp
      rcases List.mem_cons.mp hp with h1 | h2
      · subst h1
        simp
      · exact h p (List.mem_cons_of_mem _ h2)
    case isFalse heq =>
      intro p hp
      rcases List.mem_cons.mp hp with h1 | h2
      · subst h1
        exact h p (List.mem_cons_self _ _)
      · exact ih (fun r hr => h r (List.mem_cons_of_mem _ hr)) p h2

theorem offSum_eq_zero_iff (l : List (String × Nat)) (hpos : ∀ p ∈ l, 1 ≤ p.2) :
    offSum l = 0 ↔ ∀ p ∈ l, p.1 = "send" ∨ p.1 = "receive" := by
  induction l with
  | nil => simp [offSum]
  | cons p rest ih =>
    have hrest := ih fun q hq => hpos q (List.mem_cons_of_mem _ hq)
    by_cases h : offKey p.1
    · have hp1 := hpos p (List.mem_cons_self _ _)
      have hkey : ¬(p.1 = "send" ∨ p.1 = "receive") := by
        simp [offKey] at h
        tauto
      simp only [offSum, List.filter_cons, h, if_pos, List.map_cons, List.sum_cons] at hrest ⊢
      constructor
      · intro hz
        exact absurd hz (by omega)
      · intro hall
        exact absurd (hall p (List.mem_cons_self _ _)) hkey
    · have hp : p.1 = "send" ∨ p.1 = "receive" := by
        simp [offKey] at h
        tauto
      simp only [offSum, List.filter_cons, h] at hrest ⊢
      simp only [if_neg, Bool.not_eq_true] at hrest ⊢
      constructor
      · intro hz q hq
        rcases List.mem_cons.mp hq with h1 | h2
        · subst h1
          exact hp
        · exact hrest.mp hz q h2
      · intro hall
        exact hrest.mpr fun q hq => hall q (List.mem_cons_of_mem _ hq)

/-- The invariant the message fold maintains on `websocketMetrics`. -/
def WsInv (w : WebsocketMetrics) : Prop :=
  w.messageCount = sumCounts w.messageTypes ∧
  w.sentMessages + w.receivedMessages + offSum w.messageTypes = w.messageCount ∧
  ∀ p ∈ w.messageTypes, 1 ≤ p.2

theorem wsInv_msg (msg : WSMessage) (w : WebsocketMetrics) (h : WsInv w) :
    WsInv (processWSMessage msg w) := by
  obtain ⟨h1, h2, h3⟩ := h
  rw [processWSMessage_frame]
  refine ⟨?_, ?_, ?_⟩
  · simp [bump_sumCounts, h1]
  · simp only [bump_offSum]
    by_cases hs : msg.type = "send" <;> by_cases hr : msg.type = "receive" <;>
      simp [hs, hr, offKey] at * <;> omega
  · exact bump_pos _ _ h3

theorem wsInv_msgFold (msgs : List WSMessage) :
    ∀ (w : WebsocketMetrics), WsInv w →
      WsInv (msgs.foldl (fun w msg => processWSMessage msg w) w) := by
  induction msgs with
  | nil => intro w h; exact h
  | cons msg rest ih =>
    intro w h
    rw [List.foldl_cons]
    exact ih _ (wsInv_msg msg w h)

theorem processWebSocketEntry_wsInv (e : HarEntry) (m : Metrics)
    (h : WsInv m.websocketMetrics) :
    WsInv (processWebSocketEntry e m).websocketMetrics := by
  simp only [processWebSocketEntry]
  split
  case h_1 msgs heq =>
    have h1 : WsInv ({ m.websocketMetrics with
        connections := m.websocketMetrics.connections + 1 }) := h
    have h2 := wsInv_msgFold msgs _ h1
    exact h2
  case h_2 => exact h

theorem processEntry_wsInv (e : HarEntry) (m : Metrics)
    (h : WsInv m.websocketMetrics) :
    WsInv ((processEntry e m).1).websocketMetrics := by
  simp only [processEntry]
  split
  · exact h
  · split
    · exact processWebSocketEntry_wsInv e _ h
    · rw [processHTTPEntry_frame]
      exact h

theorem foldl_wsInv : ∀ (es : List HarEntry) (acc : Metrics × Nat),
    WsInv acc.1.websocketMetrics →
      WsInv (((es.foldl entryStep acc).1).websocketMetrics) := by
  intro es
  induction es with
  | nil => intro acc h; exact h
  | cons e rest ih =>
    intro acc h
    rw [List.foldl_cons]
    exact ih _ (by rw [entryStep_fst]; exact processEntry_wsInv e acc.1 h)

theorem initMetrics_wsInv : WsInv initMetrics.websocketMetrics := by
  refine ⟨rfl, rfl, ?_⟩
  intro p hp
  simp [initMetrics] at hp

/-! ## Concrete documents used in counterexamples and witnesses -/

/-- Plain HTTP entry with the given url, elapsed time, status, response
headers, body size and start timestamp. -/
def httpEntry (url : String) (t : ℚ) (status : Nat)
    (hdrs : List HarHeader) (body : Int) (ts : Int) : HarEntry :=
  ⟨⟨url⟩, ⟨status, hdrs, body⟩, t, ts, none, none⟩

/-- Failing input for claim C1: one request taking 100 ms with a 404
response, so the claimed finalization would give an average response time
of 100 and an error rate of 1. -/
def entryC1 : HarEntry :=
  httpEntry "https://api.example.com/orders" 100 404 [] 10 0

/-- Ten HTTP entries with distinct elapsed times, exactly seven above
1000 ms, for claim C2. -/
def entriesC2 : List HarEntry :=
  [ httpEntry "https://shop.example/p0" 1500 200 [] 10 0
  , httpEntry "https://shop.example/p1" 100 200 [] 10 1
  , httpEntry "https://shop.example/p2" 1400 200 [] 10 2
  , httpEntry "https://shop.example/p3" 200 200 [] 10 3
  , httpEntry "https://shop.example/p4" 1300 200 [] 10 4
  , httpEntry "https://shop.example/p5" 300 200 [] 10 5
  , httpEntry "https://shop.example/p6" 1200 200 [] 10 6
  , httpEntry "https://shop.example/p7" 1100 200 [] 10 7
  , httpEntry "https://shop.example/p8" 1600 200 [] 10 8
  , httpEntry "https://shop.example/p9" 1700 200 [] 10 9 ]

/-- Five entries whose third request URL cannot be parsed, for claim C4. -/
def entriesC4 : List HarEntry :=
  [ httpEntry "https://a.example/1" 10 200 [] 10 0
  , httpEntry "https://a.example/2" 20 200 [] 10 1
  , httpEntry "not a valid url" 30 200 [] 10 2
  , httpEntry "https://a.example/4" 40 200 [] 10 3
  , httpEntry "https://a.example/5" 50 200 [] 10 4 ]

/-- One entry with an unparseable request URL, for claim C5. -/
def entriesC5 : List HarEntry :=
  [ httpEntry "still not a url" 10 200 [] 10 0 ]

/-- Response carrying `cache-control: no-store`, for claim C6. -/
def entryNoStore : HarEntry :=
  httpEntry "https://c.example/a" 10 200 [⟨"Cache-Control", "no-store"⟩] 10 0

/-- Response carrying `cache-control: max-age=3600`, for claim C6. -/
def entryMaxAge : HarEntry :=
  httpEntry "https://c.example/b" 10 200 [⟨"Cache-Control", "max-age=3600"⟩] 10 0

/-- Response without any cache-control header, for claim C6. -/
def entryNoHeader : HarEntry :=
  httpEntry "https://c.example/c" 10 200 [⟨"Content-Type", "text/html"⟩] 10 0

/-- Request over plain http, for claim C7. -/
def entryInsecure : HarEntry :=
  httpEntry "http://insecure.example.com/login" 10 200 [] 10 0

/-- Two entries of which only the second is processed to completion, for
claim C8. -/
def entriesC8 : List HarEntry :=
  [ httpEntry "again no url here" 10 200 [] 10 0
  , httpEntry "https://b.example/x" 20 200 [] 10 1 ]

/-! ## The claims -/

/-- C1: the spec's finalization equations (`primary.avgResponseTime =
totalTime / totalRequests`, `primary.errorRate` = error fraction,
`websocketMetrics.averageMessageSize = totalMessageSize / messageCount`)
do not hold of the code: `analyzeHAR` runs no finalization step at all, so
all three derived fields keep their initial value 0 for every document —
even though the module defines `calculateErrorRate` implementing exactly
the claimed error-rate formula, it never calls it, and its own insight
text reads `primary.avgResponseTime` as if it were computed.  The last two
conjuncts evaluate the failing input: one entry with elapsed time 100 and
status 404, where the claim demands an average of 100 and an error rate of
1 but the code returns 0 for both.  (The zero-division part of the claim —
an empty entries sequence yields 0/0/0 and no exception — does hold, as
the first four conjuncts specialise to `entries = []`.) -/
theorem C1_no_finalization (entries : List HarEntry) :
    analyzeHAR (mkDoc entries) = .ok (analyzeEntries entries) ∧
    (analyzeEntries entries).metrics.primary.avgResponseTime = 0 ∧
    (analyzeEntries entries).metrics.primary.errorRate = 0 ∧
    (analyzeEntries entries).metrics.websocketMetrics.averageMessageSize = 0 ∧
    (analyzeEntries [entryC1]).metrics.totalRequests = 1 ∧
    (analyzeEntries [entryC1]).metrics.totalTime = 100 := by
  refine ⟨rfl, ?_, ?_, ?_, by decide, ?_⟩
  · show ((entries.foldl entryStep (initMetrics, 0)).1).primary.avgResponseTime = 0
    rw [foldl_primary]
    rfl
  · show ((entries.foldl entryStep (initMetrics, 0)).1).primary.errorRate = 0
    rw [foldl_primary]
    rfl
  · show ((entries.foldl entryStep (initMetrics, 0)).1).websocketMetrics.averageMessageSize = 0
    rw [foldl_averageMessageSize]
    rfl
  · show (([entryC1].foldl entryStep (initMetrics, 0)).1).totalTime = 100
    rw [foldl_totalTime]
    simp [entryC1, httpEntry, initMetrics]

/-- C2 counterexample: on ten HTTP entries with distinct elapsed times of
which exactly seven exceed 1000 ms, `httpMetrics.slowestRequests` has
seven entries, not the claimed five. -/
theorem C2_counterexample :
    ((analyzeEntries entriesC2).metrics.httpMetrics.slowestRequests).length = 7 ∧
    ¬(((analyzeEntries entriesC2).metrics.httpMetrics.slowestRequests).length = 5) := by
  constructor <;> decide

/-- C2 (amended): the accumulation-side candidacy thresholds are as
claimed, but the code never truncates or sorts either list: for every
document, `httpMetrics.slowestRequests` is exactly the entries with
elapsed time > 1000 ms, in input order, and `httpMetrics.largestRequests`
exactly those with normalized size > 1,000,000, in input order (entries
whose URL parse throws, and WebSocket entries, are not candidates); the
`selected` block that the spec's truncation would populate stays empty. -/
theorem C2_candidate_lists_uncapped (entries : List HarEntry) :
    (analyzeEntries entries).metrics.httpMetrics.slowestRequests =
      (entries.filter slowCandidate).map slowRecOf ∧
    (analyzeEntries entries).metrics.httpMetrics.largestRequests =
      (entries.filter largeCandidate).map largeRecOf ∧
    (analyzeEntries entries).metrics.selected = ⟨[], [], []⟩ := by
  refine ⟨?_, ?_, ?_⟩
  · show ((entries.foldl entryStep (initMetrics, 0)).1).httpMetrics.slowestRequests = _
    rw [foldl_slowest]
    simp [initMetrics]
  · show ((entries.foldl entryStep (initMetrics, 0)).1).httpMetrics.largestRequests = _
    rw [foldl_largest]
    simp [initMetrics]
  · show ((entries.foldl entryStep (initMetrics, 0)).1).selected = _
    rw [foldl_selected]
    rfl

/-- C3: `analyzeHAR` throws its invalid-format failure exactly when the
document lacks the `log.entries` container, the failure carries no partial
metrics, and a document with the container present never fails. -/
theorem C3_invalid_format (hc : Option HarContent) :
    (analyzeHAR hc = .error .invalidFormat ↔ hasEntriesContainer hc = false) ∧
    (hasEntriesContainer hc = true → (analyzeHAR hc).isOk = true) := by
  match hc with
  | none => exact ⟨by simp [analyzeHAR, hasEntriesContainer], by simp [hasEntriesContainer]⟩
  | some ⟨none⟩ =>
    exact ⟨by simp [analyzeHAR, hasEntriesContainer], by simp [hasEntriesContainer]⟩
  | some ⟨some ⟨none⟩⟩ =>
    exact ⟨by simp [analyzeHAR, hasEntriesContainer], by simp [hasEntriesContainer]⟩
  | some ⟨some ⟨some entries⟩⟩ =>
    exact ⟨by simp [analyzeHAR, hasEntriesContainer], fun _ => by simp [analyzeHAR, Except.isOk, Except.toBool]⟩

/-- C3 witness: the missing-container documents fail with the
invalid-format error, and a document with an (empty) entries array
succeeds. -/
theorem C3_witness :
    analyzeHAR none = .error .invalidFormat ∧
    (analyzeHAR (mkDoc [])).isOk = true := by
  exact ⟨(C3_invalid_format none).1.mpr rfl, (C3_invalid_format (mkDoc [])).2 rfl⟩

/-- C4 counterexample: in the five-entry document whose third entry has an
unparseable request URL, the third entry is excluded not only from
`domains`: its classification is skipped too (`httpMetrics.requests` is 4,
not 5) and it contributes no timeseries point. -/
theorem C4_counterexample :
    (analyzeEntries entriesC4).metrics.totalRequests = 5 ∧
    (analyzeEntries entriesC4).warnings = 1 ∧
    (analyzeEntries entriesC4).metrics.httpMetrics.requests = 4 ∧
    ((analyzeEntries entriesC4).metrics.timeseries).length = 4 ∧
    ¬((analyzeEntries entriesC4).metrics.httpMetrics.requests = 5) := by
  refine ⟨by decide, by decide, by decide, by decide, by decide⟩

/-- C4 (amended): a malformed entry never aborts the run — `analyzeHAR`
still returns a metrics object, every entry (malformed or not) is counted
in `totalRequests`, `totalSize` and `totalTime` (those increments run
before the URL parse), one warning is logged per entry whose URL parse
throws, and `domains` collects exactly the hostnames of the entries that
parse; but a throwing entry is excluded from everything computed after the
parse (classification and timeseries), not only from `domains`. -/
theorem C4_entry_failures_do_not_abort (entries : List HarEntry) :
    analyzeHAR (mkDoc entries) = .ok (analyzeEntries entries) ∧
    (analyzeEntries entries).metrics.totalRequests = entries.length ∧
    (analyzeEntries entries).warnings =
      (entries.filter fun e => (urlHostname e.request.url).isNone).length ∧
    (analyzeEntries entries).metrics.totalTime = (entries.map (·.time)).sum ∧
    (analyzeEntries entries).metrics.totalSize = (entries.map calculateEntrySize).sum ∧
    (analyzeEntries entries).metrics.domains =
      (entries.filterMap fun e => urlHostname e.request.url).foldl addToSet [] := by
  have hpred : ∀ e ∈ entries, (!entryOk e) = (urlHostname e.request.url).isNone :=
    fun e _ => by cases h : urlHostname e.request.url <;> simp [entryOk, h]
  refine ⟨rfl, ?_, ?_, ?_, ?_, ?_⟩
  · show ((entries.foldl entryStep (initMetrics, 0)).1).totalRequests = entries.length
    rw [foldl_totalRequests]
    simp [initMetrics]
  · show (entries.foldl entryStep (initMetrics, 0)).2 = _
    rw [foldl_warnings, List.filter_congr hpred]
    exact Nat.zero_add _
  · show ((entries.foldl entryStep (initMetrics, 0)).1).totalTime = _
    rw [foldl_totalTime]
    simp [initMetrics]
  · show ((entries.foldl entryStep (initMetrics, 0)).1).totalSize = _
    rw [foldl_totalSize]
    simp [initMetrics]
  · show ((entries.foldl entryStep (initMetrics, 0)).1).domains = _
    rw [foldl_domains]
    rfl

/-- Splitting the successfully processed entries by the websocket test. -/
theorem filter_partition_length (es : List HarEntry) :
    (es.filter fun e => entryOk e && !isWebsocket e).length +
      (es.filter fun e => entryOk e && isWebsocket e).length =
      (es.filter entryOk).length := by
  induction es with
  | nil => rfl
  | cons e rest ih =>
    by_cases h1 : entryOk e <;> by_cases h2 : isWebsocket e <;>
      simp [List.filter_cons, h1, h2] <;> omega

/-- C5 counterexample: a document with one entry whose request URL does not
parse has `totalRequests = 1` but classifies nothing, so
`httpMetrics.requests + websocketMetrics.connections` is 0. -/
theorem C5_counterexample :
    (analyzeEntries entriesC5).metrics.totalRequests = 1 ∧
    (analyzeEntries entriesC5).metrics.httpMetrics.requests +
        (analyzeEntries entriesC5).metrics.websocketMetrics.connections = 0 ∧
    ¬((analyzeEntries entriesC5).metrics.httpMetrics.requests +
        (analyzeEntries entriesC5).metrics.websocketMetrics.connections =
        (analyzeEntries entriesC5).metrics.totalRequests) := by
  refine ⟨by decide, by decide, by decide⟩

/-- C5 (amended): the classification partitions exactly the entries whose
processing runs to completion — `httpMetrics.requests +
websocketMetrics.connections` counts the entries with a parseable request
URL, each exactly once (websocket iff its resource-type tag is the
websocket marker), while `totalRequests` counts all entries; the claimed
equality therefore holds precisely for documents without URL-parse
failures and fails otherwise. -/
theorem C5_partition (entries : List HarEntry) :
    (analyzeEntries entries).metrics.httpMetrics.requests +
        (analyzeEntries entries).metrics.websocketMetrics.connections =
      (entries.filter entryOk).length ∧
    (analyzeEntries entries).metrics.totalRequests = entries.length := by
  constructor
  · show ((entries.foldl entryStep (initMetrics, 0)).1).httpMetrics.requests +
        ((entries.foldl entryStep (initMetrics, 0)).1).websocketMetrics.connections = _
    rw [foldl_httpRequests, foldl_wsConnections]
    simp only [initMetrics]
    rw [Nat.zero_add, Nat.zero_add]
    exact filter_partition_length entries
  · show ((entries.foldl entryStep (initMetrics, 0)).1).totalRequests = entries.length
    rw [foldl_totalRequests]
    simp [initMetrics]

/-- C6: cache accounting per HTTP entry — the cache-control response header
is matched by case-insensitive name; a value containing `no-cache` or
`no-store` increments `cacheMisses` (and leaves `cacheHits`), a present
value without those tokens increments `cacheHits` (and leaves
`cacheMisses`), and an absent header consistently increments neither. -/
theorem C6_cache_accounting (e : HarEntry) (m : Metrics) :
    (∀ cc, cacheControlOf e = some cc →
      (strIncludes cc.value "no-cache" || strIncludes cc.value "no-store") = true →
      (processHTTPEntry e m).httpMetrics.cacheMisses = m.httpMetrics.cacheMisses + 1 ∧
      (processHTTPEntry e m).httpMetrics.cacheHits = m.httpMetrics.cacheHits) ∧
    (∀ cc, cacheControlOf e = some cc →
      (strIncludes cc.value "no-cache" || strIncludes cc.value "no-store") = false →
      (processHTTPEntry e m).httpMetrics.cacheHits = m.httpMetrics.cacheHits + 1 ∧
      (processHTTPEntry e m).httpMetrics.cacheMisses = m.httpMetrics.cacheMisses) ∧
    (cacheControlOf e = none →
      (processHTTPEntry e m).httpMetrics.cacheHits = m.httpMetrics.cacheHits ∧
      (processHTTPEntry e m).httpMetrics.cacheMisses = m.httpMetrics.cacheMisses) := by
  refine ⟨?_, ?_, ?_⟩
  · intro cc hcc htok
    rw [processHTTPEntry_cacheMisses, processHTTPEntry_cacheHits, hcc]
    simp [htok]
  · intro cc hcc htok
    rw [processHTTPEntry_cacheMisses, processHTTPEntry_cacheHits, hcc]
    simp [htok]
  · intro hcc
    rw [processHTTPEntry_cacheMisses, processHTTPEntry_cacheHits, hcc]
    simp

/-- C6 witness: a `cache-control: no-store` response counts one miss and no
hit, a `cache-control: max-age=3600` response one hit and no miss, and a
response without the header neither. -/
theorem C6_witness :
    (processHTTPEntry entryNoStore initMetrics).httpMetrics.cacheMisses = 1 ∧
    (processHTTPEntry entryNoStore initMetrics).httpMetrics.cacheHits = 0 ∧
    (processHTTPEntry entryMaxAge initMetrics).httpMetrics.cacheHits = 1 ∧
    (processHTTPEntry entryMaxAge initMetrics).httpMetrics.cacheMisses = 0 ∧
    (processHTTPEntry entryNoHeader initMetrics).httpMetrics.cacheHits = 0 ∧
    (processHTTPEntry entryNoHeader initMetrics).httpMetrics.cacheMisses = 0 := by
  refine ⟨?_, ?_, ?_, ?_, ?_, ?_⟩
  · exact ((C6_cache_accounting entryNoStore initMetrics).1
      ⟨"Cache-Control", "no-store"⟩ (by decide) (by decide)).1
  · exact ((C6_cache_accounting entryNoStore initMetrics).1
      ⟨"Cache-Control", "no-store"⟩ (by decide) (by decide)).2
  · exact ((C6_cache_accounting entryMaxAge initMetrics).2.1
      ⟨"Cache-Control", "max-age=3600"⟩ (by decide) (by decide)).1
  · exact ((C6_cache_accounting entryMaxAge initMetrics).2.1
      ⟨"Cache-Control", "max-age=3600"⟩ (by decide) (by decide)).2
  · exact ((C6_cache_accounting entryNoHeader initMetrics).2.2 (by decide)).1
  · exact ((C6_cache_accounting entryNoHeader initMetrics).2.2 (by decide)).2

/-- C7 counterexample: an entry requested over plain `http://` does not
appear in `httpMetrics.securityIssues` — the list stays empty and the
claimed `{type: "insecure-protocol", url}` record is absent. -/
theorem C7_counterexample :
    (analyzeEntries [entryInsecure]).metrics.httpMetrics.securityIssues = [] ∧
    SecurityIssue.mk "insecure-protocol" "http://insecure.example.com/login" ∉
      (analyzeEntries [entryInsecure]).metrics.httpMetrics.securityIssues := by
  refine ⟨by decide, by decide⟩

/-- C7 (amended): no code path of the analyzer appends to
`httpMetrics.securityIssues`: the list is empty for every document, so an
`https://` entry indeed never appears in it (vacuously) — but neither does
an `http://` one. -/
theorem C7_security_issues_never_populated (entries : List HarEntry) :
    (analyzeEntries entries).metrics.httpMetrics.securityIssues = [] := by
  show ((entries.foldl entryStep (initMetrics, 0)).1).httpMetrics.securityIssues = []
  rw [foldl_securityIssues]
  rfl

/-- C8 counterexample: in a two-entry document whose first entry has an
unparseable request URL, the timeseries has one point, not one per entry. -/
theorem C8_counterexample :
    ((analyzeEntries entriesC8).metrics.timeseries).length = 1 ∧
    entriesC8.length = 2 ∧
    ¬(((analyzeEntries entriesC8).metrics.timeseries).length = entriesC8.length) := by
  refine ⟨by decide, by decide, by decide⟩

/-- C8 (amended): the timeseries holds one point per entry whose processing
runs to completion (an entry whose URL parse throws contributes none), in
input order and never re-sorted; each point carries exactly the two fields
`{timestamp, value}` — the start time and the elapsed time — with no size
or resource-type field. -/
theorem C8_timeseries_shape (entries : List HarEntry) :
    (analyzeEntries entries).metrics.timeseries =
      (entries.filter entryOk).map pointOf := by
  show ((entries.foldl entryStep (initMetrics, 0)).1).timeseries = _
  rw [foldl_timeseries]
  rfl

/-- C9: determinism — the analyzer's result is a function of the document
alone.  The source builds its accumulator fresh inside every call (the
`metrics` literal of lines 7–63) and keeps no module-level mutable state,
so the embedding is a pure function and any sequence of repeated calls on
the same document returns identical results. -/
theorem C9_determinism (hc : Option HarContent) (n : Nat) :
    (List.replicate n hc).map analyzeHAR = List.replicate n (analyzeHAR hc) := by
  rw [List.map_replicate]

/-- C10: for every document, `websocketMetrics.messageCount` equals the sum
of the counts in `websocketMetrics.messageTypes`; the two direction
counters sum to at most `messageCount`; and they reach it exactly when
every recorded message type (every key of `messageTypes`, which receives
one bump per counted message) is `send` or `receive`. -/
theorem C10_ws_counters (entries : List HarEntry) :
    (analyzeEntries entries).metrics.websocketMetrics.messageCount =
      sumCounts (analyzeEntries entries).metrics.websocketMetrics.messageTypes ∧
    (analyzeEntries entries).metrics.websocketMetrics.sentMessages +
        (analyzeEntries entries).metrics.websocketMetrics.receivedMessages ≤
      (analyzeEntries entries).metrics.websocketMetrics.messageCount ∧
    ((analyzeEntries entries).metrics.websocketMetrics.sentMessages +
        (analyzeEntries entries).metrics.websocketMetrics.receivedMessages =
      (analyzeEntries entries).metrics.websocketMetrics.messageCount ↔
      ∀ p ∈ (analyzeEntries entries).metrics.websocketMetrics.messageTypes,
        p.1 = "send" ∨ p.1 = "receive") := by
  have hm : (analyzeEntries entries).metrics.websocketMetrics =
      ((entries.foldl entryStep (initMetrics, 0)).1).websocketMetrics := rfl
  obtain ⟨h1, h2, h3⟩ := foldl_wsInv entries (initMetrics, 0) initMetrics_wsInv
  rw [hm]
  refine ⟨h1, by omega, ?_⟩
  rw [← offSum_eq_zero_iff _ h3]
  omega
